import Mathlib

/-!
Shallow embedding of the fuelers-go developer tooling scripts:

* `tooling/scripts/go-workspace-sync.ts` — workspace glob resolution, module
  discovery and `go.work` manifest generation (`resolveWorkspaceGlobs`,
  `discoverModules`, `generateGoWork`, `sync`);
* `tooling/scripts/make-app.ts` and `tooling/scripts/make-package.ts` — the
  scaffold engine (`parseDeps`, `validName`, `makeAppRun`, `makePackageRun`);
* `scripts/deploy-service.ts` — the deploy candidate resolver
  (`deployEnvOf`, `composeCandidates`, `deployResolve`).

JavaScript string built-ins used by those scripts (`split`, `trim`,
`endsWith`-style suffix tests, default `Array.prototype.sort`) are embedded as
executable Lean functions over `List Char` below, so that every definition
reduces inside the kernel.
-/

namespace FuelersGo

/-! ### JavaScript string primitives -/

/-- Lexicographic comparison of character lists by code point, the order
JavaScript default `Array.prototype.sort()` induces on strings.  (JS compares
UTF-16 code units; for the BMP characters appearing in directory names this
coincides with code points.) -/
def strLeAux : List Char → List Char → Bool
  | [], _ => true
  | _ :: _, [] => false
  | a :: as, b :: bs =>
    if a.toNat = b.toNat then strLeAux as bs else decide (a.toNat < b.toNat)

/-- String order used by `Array.prototype.sort()` with no comparator. -/
def strLe (s t : String) : Bool := strLeAux s.data t.data

/-- `strLe` as a relation, for use with `List.insertionSort`. -/
def strLeRel : String → String → Prop := fun a b => strLe a b = true

instance : DecidableRel strLeRel :=
  fun a b => inferInstanceAs (Decidable (strLe a b = true))

theorem strLeAux_total (as : List Char) :
    ∀ bs, strLeAux as bs = true ∨ strLeAux bs as = true := by
  induction as with
  | nil => intro bs; left; cases bs <;> rfl
  | cons a as ih =>
    intro bs
    cases bs with
    | nil => right; rfl
    | cons b bs =>
      by_cases hab : a.toNat = b.toNat
      · have hba : b.toNat = a.toNat := hab.symm
        simp only [strLeAux, if_pos hab, if_pos hba]
        exact ih bs
      · have hba : ¬ b.toNat = a.toNat := fun h => hab h.symm
        simp only [strLeAux, if_neg hab, if_neg hba, decide_eq_true_eq]
        omega

theorem strLeAux_trans (as : List Char) :
    ∀ bs cs, strLeAux as bs = true → strLeAux bs cs = true →
      strLeAux as cs = true := by
  induction as with
  | nil => intro bs cs _ _; cases cs <;> rfl
  | cons a as ih =>
    intro bs cs h1 h2
    cases bs with
    | nil => simp [strLeAux] at h1
    | cons b bs =>
      cases cs with
      | nil => simp [strLeAux] at h2
      | cons c cs =>
        by_cases hab : a.toNat = b.toNat <;> by_cases hbc : b.toNat = c.toNat
        · have hac : a.toNat = c.toNat := hab.trans hbc
          simp only [strLeAux, if_pos hab, if_pos hbc, if_pos hac] at h1 h2 ⊢
          exact ih bs cs h1 h2
        · have hac : ¬ a.toNat = c.toNat := by omega
          simp only [strLeAux, if_pos hab, if_neg hbc, if_neg hac,
            decide_eq_true_eq] at h1 h2 ⊢
          omega
        · have hac : ¬ a.toNat = c.toNat := by omega
          simp only [strLeAux, if_neg hab, if_pos hbc, if_neg hac,
            decide_eq_true_eq] at h1 h2 ⊢
          omega
        · simp only [strLeAux, if_neg hab, if_neg hbc, decide_eq_true_eq] at h1 h2
          have hac : ¬ a.toNat = c.toNat := by omega
          simp only [strLeAux, if_neg hac, decide_eq_true_eq]
          omega

instance : IsTotal String strLeRel := ⟨fun a b => strLeAux_total a.data b.data⟩

instance : IsTrans String strLeRel :=
  ⟨fun a b c => strLeAux_trans a.data b.data c.data⟩

/-- JavaScript `array.sort()` on strings: sorts ascending in the code-unit
order.  Equal strings are identical, so any sorted permutation of the input is
the unique result; we embed it with insertion sort. -/
def strSort (l : List String) : List String := List.insertionSort strLeRel l

/-- JavaScript `string.split(sep)` for a one-character separator, operating on
the character list: every occurrence of `sep` splits; `"".split(sep) = [""]`. -/
def jsSplitAux (sep : Char) : List Char → List Char → List (List Char)
  | [], acc => [acc.reverse]
  | c :: cs, acc =>
    if c = sep then acc.reverse :: jsSplitAux sep cs []
    else jsSplitAux sep cs (c :: acc)

/-- JavaScript `string.split(sep)` for a one-character separator. -/
def jsSplit (sep : Char) (s : String) : List String :=
  (jsSplitAux sep s.data []).map String.mk

/-- JavaScript `string.trim()`: strips whitespace from both ends.  (JS trims
the full Unicode white-space class; the scripts only ever trim ASCII spaces and
tabs, covered by `Char.isWhitespace`.) -/
def jsTrim (s : String) : String :=
  String.mk (((s.data.dropWhile Char.isWhitespace).reverse.dropWhile
    Char.isWhitespace).reverse)

/-- JavaScript `string.endsWith(suffix)`. -/
def strEndsWith (s suffix : String) : Bool := suffix.data.isSuffixOf s.data

/-- JavaScript `string.startsWith(p)`. -/
def strStartsWith (s p : String) : Bool := p.data.isPrefixOf s.data

/-- Drop the last `n` characters of a string. -/
def strDropRight (s : String) (n : Nat) : String :=
  String.mk (s.data.take (s.data.length - n))

/-- JS `str.charAt(0).toUpperCase() + str.slice(1)` as used by the scripts:
upper-case the first character, keep the rest. -/
def capitalize (s : String) : String :=
  match s.data with
  | [] => ""
  | c :: cs => String.mk (c.toUpper :: cs)

/-! ### `tooling/scripts/go-workspace-sync.ts` -/

/-- First `replace` in `resolveWorkspaceGlobs`:
`glob.replace(/\/\*\*?$/, "")`.  The regex matches a trailing `/**` (greedy,
preferred) or a trailing `/*`, anchored at the end, and a non-global `replace`
removes at most that one match. -/
def stripStarSuffix (s : String) : String :=
  if strEndsWith s "/**" = true then strDropRight s 3
  else if strEndsWith s "/*" = true then strDropRight s 2
  else s

/-- Second `replace` in `resolveWorkspaceGlobs`: `.replace(/\/\*$/, "")`,
removing one further trailing `/*` if present. -/
def stripSlashStar (s : String) : String :=
  if strEndsWith s "/*" = true then strDropRight s 2 else s

/-- The `baseDir` computed for one glob inside `resolveWorkspaceGlobs`:
`glob.replace(/\/\*\*?$/, "").replace(/\/\*$/, "")`. -/
def globBaseDir (s : String) : String := stripSlashStar (stripStarSuffix s)

/-- Loop body of `resolveWorkspaceGlobs`: push `d` if it is non-empty and not
already collected (`if (baseDir && !dirs.includes(baseDir)) dirs.push(...)`). -/
def pushBaseDir (acc : List String) (d : String) : List String :=
  if d ≠ "" ∧ acc.contains d = false then acc ++ [d] else acc

/-- `resolveWorkspaceGlobs(globs)`: map each glob to its base directory,
dropping empties and duplicates, then `dirs.sort()`. -/
def resolveWorkspaceGlobs (globs : List String) : List String :=
  strSort (globs.foldl (fun acc g => pushBaseDir acc (globBaseDir g)) [])

/-- One entry of `fs.readdirSync(fullBase, { withFileTypes: true })`:
its name, whether it is a directory, and whether `<name>/go.mod` exists. -/
structure DirEntry where
  name : String
  isDir : Bool
  hasGoMod : Bool
deriving DecidableEq

/-- The filesystem state `go-workspace-sync.ts` observes.  The workspace
configuration (pnpm-workspace.yaml or the package.json `workspaces` field,
chosen by `detectPackageManager`) is summarized by the glob list it yields:
the script never writes those files, and writing the `go.work` FILE at the
repository root cannot change any directory listing or any `<dir>/<child>/go.mod`
presence check, so the scan inputs and the manifest are independent fields. -/
structure SyncFS where
  workspaceGlobs : List String
  /-- Association from scan directory to its `readdirSync` entries; a missing
  key models `fs.existsSync(fullBase)` being false. -/
  dirs : List (String × List DirEntry)
  /-- Content of the root `go.work` file, if it exists. -/
  goWork : Option String
deriving DecidableEq

/-- `discoverModules(baseDir)`: for each immediate child directory that
contains a `go.mod`, emit `./<baseDir>/<name>`; return the list sorted
(`modules.sort()`).  A missing base directory yields `[]`. -/
def discoverModules (fs : SyncFS) (baseDir : String) : List String :=
  match fs.dirs.lookup baseDir with
  | none => []
  | some entries =>
    strSort ((entries.filter (fun e => e.isDir && e.hasGoMod)).map
      (fun e => "./" ++ baseDir ++ "/" ++ e.name))

/-- True when `discoverModules` takes the `console.warn` branch for a missing
scan-root directory. -/
def discoverWarned (fs : SyncFS) (baseDir : String) : Bool :=
  (fs.dirs.lookup baseDir).isNone

/-- The fixed lines pushed before the section loop in `generateGoWork`
(header comments, `go ${GO_VERSION}` with `GO_VERSION = "1.23"`, a blank line
and `use (`). -/
def goWorkHeader : List String :=
  ["// Auto-generated by scripts/go-workspace-sync.ts",
   "// Do NOT edit manually — run: pnpm workspace:sync",
   "//",
   "// This file allows Go to recognize multiple modules within the repository",
   "// without needing manual \x27replace\x27 directives in each go.mod file.",
   "go 1.23",
   "",
   "use ("]

/-- The lines one non-empty section contributes: `\t// <Capitalized label>`
followed by one `\t<module>` line per module. -/
def sectionBlock (dir : String) (mods : List String) : List String :=
  ("\t// " ++ capitalize dir) :: mods.map (fun m => "\t" ++ m)

/-- The section loop of `generateGoWork`.  An entry with no modules is skipped
(`continue`) before anything is pushed; after a section, a blank line is pushed
when the entry is not the last one of `dirEntries`
(`if (i < dirEntries.length - 1) lines.push("")`), i.e. when the remaining
entry list is non-empty — whether or not those remaining entries will emit. -/
def sectionLines : List (String × List String) → List String
  | [] => []
  | (dir, mods) :: rest =>
    if mods.isEmpty then sectionLines rest
    else
      sectionBlock dir mods ++ (if rest.isEmpty then [] else [""]) ++
        sectionLines rest

/-- `generateGoWork(modulesByDir)`: header, the section loop, `)`, and a final
empty line, joined with newlines (so the text ends in `)\n`). -/
def generateGoWork (modulesByDir : List (String × List String)) : String :=
  String.intercalate "\n" (goWorkHeader ++ sectionLines modulesByDir ++ [")", ""])

/-- The `modulesByDir` mapping `main()` builds: every resolved scan directory
is a key, in order, with its (possibly empty) discovered module list. -/
def syncScan (fs : SyncFS) : List (String × List String) :=
  (resolveWorkspaceGlobs fs.workspaceGlobs).map (fun d => (d, discoverModules fs d))

/-- `totalModules` accumulated by `main()`. -/
def syncTotal (fs : SyncFS) : Nat := ((syncScan fs).map (fun p => p.2.length)).sum

/-- The manifest text `main()` generates. -/
def syncContent (fs : SyncFS) : String := generateGoWork (syncScan fs)

/-- Observable outcome of one `go-workspace-sync.ts` run. -/
inductive SyncOutcome where
  /-- `process.exit(1)` from `getWorkspaceDirs` when zero globs were found. -/
  | exitNoGlobs : SyncOutcome
  /-- `process.exit(1)` from `main` when zero modules were discovered. -/
  | exitNoModules : SyncOutcome
  /-- The early `return` reporting the manifest is already up to date. -/
  | upToDate : SyncOutcome
  /-- `fs.writeFileSync(GO_WORK_PATH, content)` was performed. -/
  | wrote : String → SyncOutcome
deriving DecidableEq

/-- `main()` of `go-workspace-sync.ts`: fail on zero globs, fail on zero
modules, generate, compare byte-for-byte with the existing `go.work`, and
write only when different or absent. -/
def sync (fs : SyncFS) : SyncOutcome × SyncFS :=
  if fs.workspaceGlobs.isEmpty then (.exitNoGlobs, fs)
  else if syncTotal fs = 0 then (.exitNoModules, fs)
  else
    match fs.goWork with
    | some existing =>
      if existing = syncContent fs then (.upToDate, fs)
      else (.wrote (syncContent fs), { fs with goWork := some (syncContent fs) })
    | none => (.wrote (syncContent fs), { fs with goWork := some (syncContent fs) })

/-! ### `tooling/scripts/make-app.ts` and `tooling/scripts/make-package.ts` -/

/-- `parseDeps(args)` from `make-app.ts`: find the first `--deps` token; when
absent or last, default to `["logger"]`; otherwise split the following token on
commas, trim each piece, and drop pieces that are empty after trimming
(`filter(Boolean)`). -/
def parseDeps (args : List String) : List String :=
  match args.findIdx? (fun a => a == "--deps") with
  | none => ["logger"]
  | some depsIdx =>
    match args[depsIdx + 1]? with
    | none => ["logger"]
    | some tok => ((jsSplit ',' tok).map jsTrim).filter (fun s => s ≠ "")

/-- The test `/^[a-z][a-z0-9-]*$/.test(name)` shared by `make-app.ts` and
`make-package.ts`: one ASCII lowercase letter, then lowercase letters, digits
or hyphens.  Character classes compare code points (`Char.toNat`). -/
def validName (s : String) : Bool :=
  match s.data with
  | [] => false
  | c :: cs =>
    decide ((97 ≤ c.toNat ∧ c.toNat ≤ 122)) &&
      cs.all (fun x =>
        decide ((97 ≤ x.toNat ∧ x.toNat ≤ 122) ∨ (48 ≤ x.toNat ∧ x.toNat ≤ 57) ∨
          x.toNat = 45))

/-- Template variables passed to the app stubs (`StubContext`). -/
structure StubContext where
  name : String
  nameTitle : String
  deps : List String
deriving DecidableEq

/-- A filesystem mutation performed by a scaffold script. -/
inductive FsOp where
  | mkdir : String → FsOp
  | writeFile : String → String → FsOp
deriving DecidableEq

/-- Observable outcome of one scaffold run. -/
inductive MakeOutcome where
  /-- `process.exit(1)` for a missing name or a name starting with `--`. -/
  | usageExit : MakeOutcome
  /-- `process.exit(1)` for a name failing the validation regex. -/
  | invalidNameExit : MakeOutcome
  /-- `process.exit(1)` because the target directory already exists. -/
  | existsExit : MakeOutcome
  /-- `renderStub` threw because a stub file is missing. -/
  | stubMissing : String → MakeOutcome
  /-- All files were written (post-generation hooks are best-effort and do not
  change the outcome). -/
  | ok : MakeOutcome
deriving DecidableEq

/-- External state observed by `make-app.ts`: `fs.existsSync`, stub presence
(`renderStub` throws when the stub file is missing), and the rendered content
`ejs.render(template, context)` of a stub, treated as opaque. -/
structure AppEnv where
  pathExists : String → Bool
  stubExists : String → Bool
  render : String → StubContext → String

/-- `ensureDir(dir)`: `mkdirSync` only when the directory does not exist. -/
def ensureDirOps (pathExists : String → Bool) (dir : String) : List FsOp :=
  if pathExists dir = true then [] else [FsOp.mkdir dir]

/-- Evaluate the `files` object literal: render each stub in order; the first
missing stub file aborts with its path (`renderStub` throws). -/
def renderAll (stubExists : String → Bool) (render : String → String) :
    List (String × String) → Except String (List (String × String))
  | [] => .ok []
  | (dst, stub) :: rest =>
    if stubExists stub = true then
      match renderAll stubExists render rest with
      | .ok l => .ok ((dst, render stub) :: l)
      | .error e => .error e
    else .error stub

/-- The fixed destination-path → stub-path mapping of `make-app.ts`, in the
source order of the object literal. -/
def appStubFiles : List (String × String) :=
  [("src/main.go", "src/main.go.ejs"),
   ("go.mod", "go.mod.ejs"),
   ("package.json", "package.json.ejs"),
   (".air.toml", ".air.toml.ejs"),
   ("env/.env.example", ".env.example.ejs"),
   ("docker/Dockerfile", "Dockerfile.ejs"),
   ("docker/compose.local.yaml", "docker/compose.local.yaml.ejs"),
   ("docker/compose.dev.yaml", "docker/compose.dev.yaml.ejs"),
   ("docker/compose.production.yaml", "docker/compose.production.yaml.ejs")]

/-- `main()` of `make-app.ts`, returning the ordered filesystem mutations it
performs together with its outcome.  Validation and the collision check happen
before any mutation; `ensureDir` calls precede the renders, so a missing stub
aborts after the directories were already created. -/
def makeAppRun (argv : List String) (env : AppEnv) : List FsOp × MakeOutcome :=
  match argv[2]? with
  | none => ([], .usageExit)
  | some name =>
    if (name == "" || strStartsWith name "--") = true then ([], .usageExit)
    else if validName name = false then ([], .invalidNameExit)
    else
      let appDir := "apps/" ++ name
      if env.pathExists appDir = true then ([], .existsExit)
      else
        let context : StubContext := ⟨name, capitalize name, parseDeps argv⟩
        let dirOps := ensureDirOps env.pathExists (appDir ++ "/src") ++
          ensureDirOps env.pathExists (appDir ++ "/docker") ++
          ensureDirOps env.pathExists (appDir ++ "/env")
        match renderAll env.stubExists (fun stub => env.render stub context)
            appStubFiles with
        | .error stub => (dirOps, .stubMissing stub)
        | .ok files =>
          (dirOps ++ files.map (fun p => FsOp.writeFile (appDir ++ "/" ++ p.1) p.2),
            .ok)

/-- Template variables passed to the package stubs (only the name). -/
structure PkgContext where
  name : String
deriving DecidableEq

/-- External state observed by `make-package.ts`. -/
structure PkgEnv where
  pathExists : String → Bool
  stubExists : String → Bool
  render : String → PkgContext → String

/-- The fixed destination-path → stub-path mapping of `make-package.ts`; the
first destination is the computed key `src/<name>.go`. -/
def pkgStubFiles (name : String) : List (String × String) :=
  [("src/" ++ name ++ ".go", "__name__.go.ejs"),
   ("go.mod", "go.mod.ejs"),
   ("package.json", "package.json.ejs"),
   (".air.toml", "air.toml")]

/-- `main()` of `make-package.ts`: same validation pipeline as `make-app.ts`
against `packages/<name>`, one `ensureDir` and four files, no `--deps`. -/
def makePackageRun (argv : List String) (env : PkgEnv) :
    List FsOp × MakeOutcome :=
  match argv[2]? with
  | none => ([], .usageExit)
  | some name =>
    if (name == "" || strStartsWith name "--") = true then ([], .usageExit)
    else if validName name = false then ([], .invalidNameExit)
    else
      let pkgDir := "packages/" ++ name
      if env.pathExists pkgDir = true then ([], .existsExit)
      else
        let context : PkgContext := ⟨name⟩
        let dirOps := ensureDirOps env.pathExists (pkgDir ++ "/src")
        match renderAll env.stubExists (fun stub => env.render stub context)
            (pkgStubFiles name) with
        | .error stub => (dirOps, .stubMissing stub)
        | .ok files =>
          (dirOps ++ files.map (fun p => FsOp.writeFile (pkgDir ++ "/" ++ p.1) p.2),
            .ok)

/-! ### `scripts/deploy-service.ts` -/

/-- External state observed by `deploy-service.ts`. -/
structure DeployState where
  argv : List String
  /-- `process.env.DEPLOY_ENV`. -/
  deployEnvVar : Option String
  pathExists : String → Bool

/-- `const deployEnv = envArgIdx !== -1 ? process.argv[envArgIdx + 1]
: process.env.DEPLOY_ENV`: the environment variable is read only when no
`--env` token is present at all; a trailing `--env` yields `undefined`. -/
def deployEnvOf (st : DeployState) : Option String :=
  match st.argv.findIdx? (fun a => a == "--env") with
  | some envArgIdx => st.argv[envArgIdx + 1]?
  | none => st.deployEnvVar

/-- The ordered candidate list: environment-specific names only when
`deployEnv` is truthy (present and non-empty), then always the generic pair. -/
def composeCandidates : Option String → List String
  | some tag =>
    if tag = "" then ["compose.yaml", "compose.yml"]
    else ["compose." ++ tag ++ ".yaml", "compose." ++ tag ++ ".yml",
      "compose.yaml", "compose.yml"]
  | none => ["compose.yaml", "compose.yml"]

/-- Observable outcome of the resolution phase of `deploy-service.ts`. -/
inductive DeployResolve where
  /-- `process.exit(1)`: service name missing. -/
  | noService : DeployResolve
  /-- `process.exit(1)`: `apps/<name>` does not exist. -/
  | serviceDirMissing : DeployResolve
  /-- First existing candidate, as the full path that is passed to compose. -/
  | selected : String → DeployResolve
  /-- `process.exit(1)` listing every checked candidate name. -/
  | notFound : List String → DeployResolve
deriving DecidableEq

/-- `main()` of `deploy-service.ts` up to candidate selection: validate the
service name and directory, then take the first candidate that exists under
`apps/<name>/docker`, else fail listing all checked candidates. -/
def deployResolve (st : DeployState) : DeployResolve :=
  match st.argv[2]? with
  | none => .noService
  | some serviceName =>
    if serviceName = "" then .noService
    else
      let serviceDir := "apps/" ++ serviceName
      if st.pathExists serviceDir = false then .serviceDirMissing
      else
        let dockerDir := serviceDir ++ "/docker"
        let candidates := composeCandidates (deployEnvOf st)
        match candidates.find? (fun f => st.pathExists (dockerDir ++ "/" ++ f)) with
        | some file => .selected (dockerDir ++ "/" ++ file)
        | none => .notFound candidates

/-! ### Helper lemmas about `sync` -/

theorem syncContent_setGoWork (fs : SyncFS) (c : Option String) :
    syncContent { fs with goWork := c } = syncContent fs := rfl

theorem syncTotal_setGoWork (fs : SyncFS) (c : Option String) :
    syncTotal { fs with goWork := c } = syncTotal fs := rfl

/-- Re-running `sync` right after it wrote the manifest finds the guards in the
same state (only `goWork` changed) and the freshly written content equal to the
regenerated one, so it takes the early `return`. -/
theorem sync_after_write (fs : SyncFS) (hg : fs.workspaceGlobs.isEmpty = false)
    (ht : ¬ syncTotal fs = 0) :
    sync { fs with goWork := some (syncContent fs) } =
      (SyncOutcome.upToDate, { fs with goWork := some (syncContent fs) }) := by
  have hg2 : ({ fs with goWork := some (syncContent fs) } : SyncFS).workspaceGlobs.isEmpty
      = false := hg
  have ht2 : ¬ syncTotal { fs with goWork := some (syncContent fs) } = 0 := ht
  simp [sync, hg2, ht2, syncContent_setGoWork]

/-- **C1.** Idempotent sync: if the generated manifest text equals the existing
`go.work` byte-for-byte, `sync` performs no write; and for every fixed
filesystem state, running `sync` twice writes at most on the first run — the
second run performs zero writes, and when the first run succeeded (wrote or was
already current) the second reports up to date. -/
theorem sync_idempotent (fs : SyncFS) :
    (fs.goWork = some (syncContent fs) → ∀ c, (sync fs).1 ≠ SyncOutcome.wrote c) ∧
    (∀ c, (sync (sync fs).2).1 ≠ SyncOutcome.wrote c) ∧
    (sync (sync fs).2).2 = (sync fs).2 ∧
    (((sync fs).1 = SyncOutcome.upToDate ∨ ∃ c, (sync fs).1 = SyncOutcome.wrote c) →
      (sync (sync fs).2).1 = SyncOutcome.upToDate) := by
  by_cases hg : fs.workspaceGlobs.isEmpty = true
  · have h1 : sync fs = (SyncOutcome.exitNoGlobs, fs) := by simp [sync, hg]
    have h2 : (sync fs).2 = fs := by rw [h1]
    refine ⟨fun _ c => by rw [h1]; simp, fun c => by rw [h2, h1]; simp,
      by rw [h2, h1], fun h => ?_⟩
    rw [h1] at h
    rcases h with h | ⟨c, h⟩ <;> simp at h
  · have hg2 : fs.workspaceGlobs.isEmpty = false := by
      simpa using hg
    by_cases ht : syncTotal fs = 0
    · have h1 : sync fs = (SyncOutcome.exitNoModules, fs) := by simp [sync, hg2, ht]
      have h2 : (sync fs).2 = fs := by rw [h1]
      refine ⟨fun _ c => by rw [h1]; simp, fun c => by rw [h2, h1]; simp,
        by rw [h2, h1], fun h => ?_⟩
      rw [h1] at h
      rcases h with h | ⟨c, h⟩ <;> simp at h
    · cases hw : fs.goWork with
      | none =>
        have h1 : sync fs =
            (SyncOutcome.wrote (syncContent fs),
              { fs with goWork := some (syncContent fs) }) := by
          simp [sync, hg2, ht, hw]
        have h2 : (sync fs).2 = { fs with goWork := some (syncContent fs) } := by
          rw [h1]
        have h3 := sync_after_write fs hg2 ht
        refine ⟨fun hsome c2 => ?_, fun c => by simp [h2, h3],
          by simp [h2, h3], fun _ => by simp [h2, h3]⟩
        simp [hw] at hsome
      | some existing =>
        by_cases he : existing = syncContent fs
        · have h1 : sync fs = (SyncOutcome.upToDate, fs) := by
            simp [sync, hg2, ht, hw, he]
          have h2 : (sync fs).2 = fs := by rw [h1]
          exact ⟨fun _ c => by rw [h1]; simp, fun c => by rw [h2, h1]; simp,
            by rw [h2, h1], fun _ => by rw [h2, h1]⟩
        · have h1 : sync fs =
              (SyncOutcome.wrote (syncContent fs),
                { fs with goWork := some (syncContent fs) }) := by
            simp [sync, hg2, ht, hw, he]
          have h2 : (sync fs).2 = { fs with goWork := some (syncContent fs) } := by
            rw [h1]
          have h3 := sync_after_write fs hg2 ht
          refine ⟨fun hsome c2 => ?_, fun c => by simp [h2, h3],
            by simp [h2, h3], fun _ => by simp [h2, h3]⟩
          exact absurd (Option.some.inj hsome) he

/-- A concrete workspace: two globs, an `apps` directory with two modules and
one non-module child, no `packages` directory, no existing `go.work`. -/
def fsWit : SyncFS :=
  ⟨["apps/*", "packages/*"],
   [("apps", [⟨"gateway", true, true⟩, ⟨"auth", true, true⟩, ⟨"tmp", true, false⟩])],
   none⟩

/-- The same workspace after the manifest was brought up to date. -/
def fsWitCurrent : SyncFS := { fsWit with goWork := some (syncContent fsWit) }

set_option maxRecDepth 200000 in
/-- Witness for C1: on a concrete state whose `go.work` matches the generated
text, `sync` does not write; and on a concrete state where the first run
writes, the second run reports up to date. -/
theorem sync_idempotent_witness :
    (sync fsWitCurrent).1 ≠ SyncOutcome.wrote (syncContent fsWit) ∧
    (sync (sync fsWit).2).1 = SyncOutcome.upToDate :=
  ⟨(sync_idempotent fsWitCurrent).1 rfl (syncContent fsWit),
   (sync_idempotent fsWit).2.2.2 (Or.inr ⟨syncContent fsWit, rfl⟩)⟩

/-- **C6.** Fail-fast on empty configuration: with zero workspace globs `sync`
exits via `exitNoGlobs`, and with zero discovered modules overall it exits via
`exitNoModules`; in both cases the state — in particular the manifest file —
is returned unchanged. -/
theorem sync_failfast (fs : SyncFS) :
    (fs.workspaceGlobs = [] → sync fs = (SyncOutcome.exitNoGlobs, fs)) ∧
    (fs.workspaceGlobs ≠ [] → syncTotal fs = 0 →
      sync fs = (SyncOutcome.exitNoModules, fs)) := by
  constructor
  · intro h
    simp [sync, h]
  · intro h ht
    have hg2 : fs.workspaceGlobs.isEmpty = false := by
      cases hx : fs.workspaceGlobs with
      | nil => exact absurd hx h
      | cons a l => simp [hx]
    simp [sync, hg2, ht]

/-- A state with config files yielding no globs but a stale manifest. -/
def fsNoGlobs : SyncFS := ⟨[], [("apps", [⟨"gateway", true, true⟩])], some "stale"⟩

/-- A state with one glob but no modules anywhere. -/
def fsNoModules : SyncFS := ⟨["apps/*"], [], some "stale"⟩

/-- Witness for C6 at two concrete states: no globs, and no modules; neither
run touches the stale manifest. -/
theorem sync_failfast_witness :
    sync fsNoGlobs = (SyncOutcome.exitNoGlobs, fsNoGlobs) ∧
    sync fsNoModules = (SyncOutcome.exitNoModules, fsNoModules) :=
  ⟨(sync_failfast fsNoGlobs).1 rfl,
   (sync_failfast fsNoModules).2 (by decide) (by decide)⟩

/-- **C7.** Discovery lists one level only (the model ranges over the
`readdirSync` entries of the scan root): it emits exactly the child directories
that directly contain `go.mod`, as `./<root>/<name>` records, sorted in the
code-point (case-sensitive) lexicographic order; a missing scan-root directory
yields the empty list plus a warning instead of a failure. -/
theorem discoverModules_spec (fs : SyncFS) (baseDir : String) :
    (fs.dirs.lookup baseDir = none →
      discoverModules fs baseDir = [] ∧ discoverWarned fs baseDir = true) ∧
    (∀ entries, fs.dirs.lookup baseDir = some entries →
      List.Sorted strLeRel (discoverModules fs baseDir) ∧
      (∀ m, m ∈ discoverModules fs baseDir ↔
        ∃ e ∈ entries, e.isDir = true ∧ e.hasGoMod = true ∧
          m = "./" ++ baseDir ++ "/" ++ e.name) ∧
      discoverWarned fs baseDir = false) := by
  constructor
  · intro h
    exact ⟨by simp [discoverModules, h], by simp [discoverWarned, h]⟩
  · intro entries h
    refine ⟨?_, ?_, by simp [discoverWarned, h]⟩
    · simp only [discoverModules, h]
      exact List.sorted_insertionSort strLeRel _
    · intro m
      simp only [discoverModules, h, strSort]
      rw [List.mem_insertionSort]
      simp only [List.mem_map, List.mem_filter, Bool.and_eq_true]
      constructor
      · rintro ⟨e, ⟨he, hd, hg⟩, hm⟩
        exact ⟨e, he, hd, hg, hm.symm⟩
      · rintro ⟨e, he, hd, hg, hm⟩
        exact ⟨e, ⟨he, hd, hg⟩, hm.symm⟩

/-- Witness for C7 on the concrete workspace `fsWit`: `auth` and `gateway` are
discovered in lexicographic order, `tmp` (no `go.mod`) is excluded, and the
missing `packages` directory yields `[]` plus a warning. -/
theorem discoverModules_spec_witness :
    ("./apps/auth" ∈ discoverModules fsWit "apps") ∧
    discoverModules fsWit "apps" = ["./apps/auth", "./apps/gateway"] ∧
    discoverModules fsWit "packages" = [] ∧
    discoverWarned fsWit "packages" = true :=
  ⟨(((discoverModules_spec fsWit "apps").2
      [⟨"gateway", true, true⟩, ⟨"auth", true, true⟩, ⟨"tmp", true, false⟩]
        rfl).2.1 "./apps/auth").mpr
      ⟨⟨"auth", true, true⟩, by decide, rfl, rfl, by decide⟩,
   by decide,
   ((discoverModules_spec fsWit "packages").1 rfl).1,
   ((discoverModules_spec fsWit "packages").1 rfl).2⟩

/-! ### The manifest layout (C3) -/

/-- Spec-side (§4.4): the sections that get emitted are exactly the entries
with a non-empty module list. -/
def emittedSections (l : List (String × List String)) :
    List (String × List String) :=
  l.filter (fun p => !p.2.isEmpty)

/-- Spec-side (§4.4): blocks of the emitted sections separated by exactly one
blank line, with no trailing blank line. -/
def sectionsSeparated : List (String × List String) → List String
  | [] => []
  | [(d, ms)] => sectionBlock d ms
  | (d, ms) :: p :: rest => sectionBlock d ms ++ [""] ++ sectionsSeparated (p :: rest)

/-- Whether the final entry of the ordered mapping has zero modules. -/
def lastEntryEmpty : List (String × List String) → Bool
  | [] => false
  | [(_, ms)] => ms.isEmpty
  | _ :: p :: rest => lastEntryEmpty (p :: rest)

theorem lastEntryEmpty_of_emitted_nil :
    ∀ l : List (String × List String), l ≠ [] → emittedSections l = [] →
      lastEntryEmpty l = true := by
  intro l
  induction l with
  | nil => intro h; exact absurd rfl h
  | cons p rest ih =>
    intro _ hemit
    have hp : p.2.isEmpty = true := by
      by_contra hne
      simp [emittedSections, List.filter_cons, hne] at hemit
    cases rest with
    | nil =>
      cases p with
      | mk d ms => simpa [lastEntryEmpty] using hp
    | cons q rs =>
      have hrest : emittedSections (q :: rs) = [] := by
        simpa [emittedSections, List.filter_cons, hp] using hemit
      cases p with
      | mk d ms => simpa [lastEntryEmpty] using ih (by simp) hrest

/-- **C3 (amended).** The generated manifest skips zero-module roots entirely,
separates consecutive emitted sections by exactly one blank line, and puts no
blank line between the final emitted section and `)` when the final entry of
the mapping is non-empty; but when the mapping ends in zero-module entries and
at least one section was emitted, exactly one blank line precedes `)`. -/
theorem sectionLines_characterization (l : List (String × List String)) :
    sectionLines l =
      sectionsSeparated (emittedSections l) ++
        (if lastEntryEmpty l = true ∧ emittedSections l ≠ [] then [""] else []) ∧
    generateGoWork l =
      String.intercalate "\n" (goWorkHeader ++ sectionLines l ++ [")", ""]) := by
  refine ⟨?_, rfl⟩
  induction l with
  | nil => simp [sectionLines, emittedSections, sectionsSeparated, lastEntryEmpty]
  | cons p rest ih =>
    cases p with
    | mk d ms =>
      by_cases hm : ms.isEmpty = true
      · cases rest with
        | nil =>
          simp [sectionLines, hm, emittedSections, List.filter_cons,
            sectionsSeparated, lastEntryEmpty]
        | cons q rs =>
          have hemit : emittedSections ((d, ms) :: q :: rs) =
              emittedSections (q :: rs) := by
            simp [emittedSections, List.filter_cons, hm]
          have hlast : lastEntryEmpty ((d, ms) :: q :: rs) =
              lastEntryEmpty (q :: rs) := rfl
          have hskip : sectionLines ((d, ms) :: q :: rs) =
              sectionLines (q :: rs) := by
            simp [sectionLines, hm]
          rw [hskip, hemit, hlast]
          exact ih
      · cases rest with
        | nil =>
          simp [sectionLines, hm, emittedSections, List.filter_cons,
            sectionsSeparated, lastEntryEmpty]
        | cons q rs =>
          have hcons : sectionLines ((d, ms) :: q :: rs) =
              sectionBlock d ms ++ [""] ++ sectionLines (q :: rs) := by
            simp [sectionLines, hm]
          have hemit : emittedSections ((d, ms) :: q :: rs) =
              (d, ms) :: emittedSections (q :: rs) := by
            simp [emittedSections, List.filter_cons, hm]
          have hlast : lastEntryEmpty ((d, ms) :: q :: rs) =
              lastEntryEmpty (q :: rs) := rfl
          by_cases hrest : emittedSections (q :: rs) = []
          · have hall : sectionLines (q :: rs) = [] := by
              rw [ih, hrest]
              simp [sectionsSeparated]
            have hlastq : lastEntryEmpty (q :: rs) = true :=
              lastEntryEmpty_of_emitted_nil _ (by simp) hrest
            rw [hcons, hall, hemit, hrest]
            simp [sectionsSeparated, lastEntryEmpty, hlastq]
          · obtain ⟨e, es, hes⟩ : ∃ e es, emittedSections (q :: rs) = e :: es := by
              cases hx : emittedSections (q :: rs) with
              | nil => exact absurd hx hrest
              | cons e es => exact ⟨e, es, rfl⟩
            rw [hcons, ih, hemit, hes]
            simp [sectionsSeparated, lastEntryEmpty, List.append_assoc]

set_option maxRecDepth 200000 in
/-- Counterexample to C3 as stated: with a non-empty `apps` root followed by a
zero-module `packages` root, the section loop pushes a blank line after the
`apps` section (because `apps` is not the last *entry*), and the skipped last
entry leaves that blank line standing right before `)` — so the manifest
differs from the one generated without the empty trailing root. -/
theorem generateGoWork_trailing_blank_cex :
    sectionLines [("apps", ["./apps/gateway"]), ("packages", [])] =
      ["\t// Apps", "\t./apps/gateway", ""] ∧
    strEndsWith (generateGoWork [("apps", ["./apps/gateway"]), ("packages", [])])
      "\t./apps/gateway\n\n)\n" = true ∧
    generateGoWork [("apps", ["./apps/gateway"]), ("packages", [])] ≠
      generateGoWork [("apps", ["./apps/gateway"])] := by decide

/-! ### Glob stripping (C2) -/

/-- Modelled from the spec (§4.2): strip **exactly one** trailing `/**` or `/*`
suffix; the remainder is the scan root.  This is the comparison point for the
code-side `globBaseDir`. -/
def specStripOneSuffix (s : String) : String :=
  if strEndsWith s "/**" = true then strDropRight s 3
  else if strEndsWith s "/*" = true then strDropRight s 2
  else s

/-- A string ending in `/*` does not also end in `/**` (its second-to-last
character is `/`, not `*`). -/
theorem strEndsWith_slashStar_excl (s : String)
    (h : strEndsWith s "/*" = true) : strEndsWith s "/**" = false := by
  have h2 : List.isPrefixOf ['*', '/'] s.data.reverse = true := h
  show List.isPrefixOf ['*', '*', '/'] s.data.reverse = false
  cases hr : s.data.reverse with
  | nil => rw [hr] at h2; simp [List.isPrefixOf] at h2
  | cons a l =>
    cases l with
    | nil => rw [hr] at h2; simp [List.isPrefixOf] at h2
    | cons b l2 =>
      rw [hr] at h2
      simp only [List.isPrefixOf, Bool.and_eq_true, beq_iff_eq] at h2
      obtain ⟨ha, hb, _⟩ := h2
      subst ha
      subst hb
      simp [List.isPrefixOf]

theorem specStripOneSuffix_of_endsWith (t : String)
    (h : strEndsWith t "/*" = true) :
    specStripOneSuffix t = strDropRight t 2 := by
  unfold specStripOneSuffix
  rw [strEndsWith_slashStar_excl t h]
  simp [h]

set_option maxRecDepth 10000 in
/-- Counterexample to C2 as stated: the code chains a second
`replace(/\/\*$/, "")`, so the glob `apps/*/*` — which ends in two wildcard
segments — is stripped twice, yielding scan root `apps`, not the `apps/*` that
exactly-one-level stripping would give. -/
theorem globBaseDir_double_strip_cex :
    globBaseDir "apps/*/*" = "apps" ∧
    specStripOneSuffix "apps/*/*" = "apps/*" ∧
    ("apps" : String) ≠ "apps/*" ∧
    resolveWorkspaceGlobs ["apps/*/*"] = ["apps"] := by decide

/-- **C2 (amended).** For every glob the code strips one trailing `/**` or `/*`
suffix, and then strips one *additional* trailing `/*` suffix when the
remainder still ends in `/*`; it never strips more than these two. -/
theorem globBaseDir_characterization (s : String) :
    globBaseDir s =
      (if strEndsWith (specStripOneSuffix s) "/*" = true
       then specStripOneSuffix (specStripOneSuffix s)
       else specStripOneSuffix s) := by
  have hfirst : stripStarSuffix s = specStripOneSuffix s := rfl
  show stripSlashStar (stripStarSuffix s) = _
  rw [hfirst]
  by_cases h : strEndsWith (specStripOneSuffix s) "/*" = true
  · rw [if_pos h, specStripOneSuffix_of_endsWith _ h]
    unfold stripSlashStar
    rw [if_pos h]
  · rw [if_neg h]
    unfold stripSlashStar
    rw [if_neg h]

/-! ### Dependency-flag parsing (C8) -/

theorem findIdx?_token_none (t : String) (l : List String) (hl : t ∉ l) :
    List.findIdx? (fun a => a == t) l = none := by
  rw [List.findIdx?_eq_none_iff]
  intro x hx
  simp only [beq_eq_false_iff_ne, ne_eq]
  intro hxe
  exact hl (hxe ▸ hx)

/-- **C8.** Dependency-flag parsing: with no `--deps` token, or with `--deps`
as the final token, the result is exactly `["logger"]`; otherwise the token
following the first `--deps` is split on commas, every piece is trimmed, empty
pieces are dropped after trimming, and the surviving pieces keep their order
with no de-duplication (the result is literally the ordered
split-trim-filter of that token). -/
theorem parseDeps_spec (args : List String) :
    ("--deps" ∉ args → parseDeps args = ["logger"]) ∧
    (∀ pre, args = pre ++ ["--deps"] → "--deps" ∉ pre →
      parseDeps args = ["logger"]) ∧
    (∀ pre tok rest, args = pre ++ "--deps" :: tok :: rest → "--deps" ∉ pre →
      parseDeps args = ((jsSplit ',' tok).map jsTrim).filter (fun s => s ≠ "")) := by
  refine ⟨?_, ?_, ?_⟩
  · intro h
    unfold parseDeps
    rw [findIdx?_token_none "--deps" args h]
  · intro pre hpre hnot
    subst hpre
    unfold parseDeps
    rw [List.findIdx?_append, findIdx?_token_none "--deps" pre hnot]
    have h0 : List.findIdx? (fun a => a == "--deps") ["--deps"] = some 0 := rfl
    rw [h0, Option.none_or]
    simp only [Option.map_some', Nat.zero_add]
    rw [List.getElem?_eq_none (by simp)]
  · intro pre tok rest hpre hnot
    subst hpre
    unfold parseDeps
    rw [List.findIdx?_append, findIdx?_token_none "--deps" pre hnot]
    have h0 : List.findIdx? (fun a => a == "--deps") ("--deps" :: tok :: rest)
        = some 0 := rfl
    rw [h0, Option.none_or]
    simp only [Option.map_some', Nat.zero_add]
    rw [List.getElem?_append_right (by omega)]
    have h1 : pre.length + 1 - pre.length = 1 := by omega
    rw [h1, show ("--deps" :: tok :: rest)[1]? = some tok by simp]

/-- Witness for C8 at the three concrete argument lists the spec quotes:
absent flag, trailing flag, and a comma list with stray whitespace. -/
theorem parseDeps_spec_witness :
    parseDeps ["node", "script", "app"] = ["logger"] ∧
    parseDeps ["node", "script", "app", "--deps"] = ["logger"] ∧
    parseDeps ["node", "script", "app", "--deps", " logger , config "] =
      ["logger", "config"] :=
  ⟨(parseDeps_spec ["node", "script", "app"]).1 (by decide),
   (parseDeps_spec ["node", "script", "app", "--deps"]).2.1
     ["node", "script", "app"] rfl (by decide),
   by
     rw [(parseDeps_spec ["node", "script", "app", "--deps",
       " logger , config "]).2.2 ["node", "script", "app"] " logger , config " []
       rfl (by decide)]
     decide⟩

/-! ### Name validation (C9) and collision atomicity (C5) -/

/-- **C9.** A unit name is accepted iff it is a lowercase ASCII letter followed
by lowercase letters, digits or hyphens (code points: 97–122, 48–57, 45); an
absent name or one starting with `--` exits via the usage error, and a present
name failing the pattern exits via the validation error — in each rejection
case both scripts return with an empty mutation list (exit 1 before any
filesystem change). -/
theorem name_validation_spec :
    (∀ s, validName s = true ↔
      ∃ c cs, s.data = c :: cs ∧ (97 ≤ c.toNat ∧ c.toNat ≤ 122) ∧
        ∀ x ∈ cs, (97 ≤ x.toNat ∧ x.toNat ≤ 122) ∨ (48 ≤ x.toNat ∧ x.toNat ≤ 57) ∨
          x.toNat = 45) ∧
    (∀ argv (env : AppEnv), argv[2]? = (none : Option String) →
      makeAppRun argv env = ([], MakeOutcome.usageExit)) ∧
    (∀ argv (env : AppEnv) name, argv[2]? = some name →
      (name == "" || strStartsWith name "--") = true →
      makeAppRun argv env = ([], MakeOutcome.usageExit)) ∧
    (∀ argv (env : AppEnv) name, argv[2]? = some name →
      (name == "" || strStartsWith name "--") = false → validName name = false →
      makeAppRun argv env = ([], MakeOutcome.invalidNameExit)) ∧
    (∀ argv (env : PkgEnv), argv[2]? = (none : Option String) →
      makePackageRun argv env = ([], MakeOutcome.usageExit)) ∧
    (∀ argv (env : PkgEnv) name, argv[2]? = some name →
      (name == "" || strStartsWith name "--") = true →
      makePackageRun argv env = ([], MakeOutcome.usageExit)) ∧
    (∀ argv (env : PkgEnv) name, argv[2]? = some name →
      (name == "" || strStartsWith name "--") = false → validName name = false →
      makePackageRun argv env = ([], MakeOutcome.invalidNameExit)) := by
  refine ⟨?_, ?_, ?_, ?_, ?_, ?_, ?_⟩
  · intro s
    constructor
    · intro h
      cases hd : s.data with
      | nil => rw [validName, hd] at h; simp at h
      | cons c cs =>
        rw [validName, hd] at h
        simp only [Bool.and_eq_true, decide_eq_true_eq, List.all_eq_true] at h
        exact ⟨c, cs, rfl, h.1, fun x hx => by
          have := h.2 x hx
          simpa using this⟩
    · rintro ⟨c, cs, hd, h1, h2⟩
      rw [validName, hd]
      simp only [Bool.and_eq_true, decide_eq_true_eq, List.all_eq_true]
      exact ⟨h1, fun x hx => by simpa using h2 x hx⟩
  · intro argv env h
    simp [makeAppRun, h]
  · intro argv env name h1 h2
    simp [makeAppRun, h1, h2]
  · intro argv env name h1 h2 h3
    simp [makeAppRun, h1, h2, h3]
  · intro argv env h
    simp [makePackageRun, h]
  · intro argv env name h1 h2
    simp [makePackageRun, h1, h2]
  · intro argv env name h1 h2 h3
    simp [makePackageRun, h1, h2, h3]

/-- An environment where nothing exists on disk yet and all stubs are present. -/
def appEnvW : AppEnv := ⟨fun _ => false, fun _ => true, fun _ _ => ""⟩

/-- Same, for `make-package.ts`. -/
def pkgEnvW : PkgEnv := ⟨fun _ => false, fun _ => true, fun _ _ => ""⟩

/-- Witness for C9 on the concrete names of the spec: three accepted, four
rejected, plus three concrete rejected runs performing zero mutations. -/
theorem name_validation_witness :
    validName "my-app" = true ∧ validName "auth123" = true ∧
    validName "gateway" = true ∧ validName "My-App" = false ∧
    validName "123app" = false ∧ validName "app_name" = false ∧
    validName "-app" = false ∧
    makeAppRun ["node", "script", "My-App"] appEnvW =
      ([], MakeOutcome.invalidNameExit) ∧
    makeAppRun ["node", "script"] appEnvW = ([], MakeOutcome.usageExit) ∧
    makePackageRun ["node", "script", "--x"] pkgEnvW = ([], MakeOutcome.usageExit) :=
  ⟨by decide, by decide, by decide, by decide, by decide, by decide, by decide,
   name_validation_spec.2.2.2.1 ["node", "script", "My-App"] appEnvW "My-App"
     (by decide) (by decide) (by decide),
   name_validation_spec.2.1 ["node", "script"] appEnvW (by decide),
   name_validation_spec.2.2.2.2.2.1 ["node", "script", "--x"] pkgEnvW "--x"
     (by decide) (by decide)⟩

/-- **C5.** Collision atomicity: when the target directory for a validated
name already exists, both scaffold scripts exit via the conflict error with an
empty mutation list — no directory is created and no file is written. -/
theorem scaffold_collision_atomic :
    (∀ argv (env : AppEnv) name, argv[2]? = some name →
      (name == "" || strStartsWith name "--") = false → validName name = true →
      env.pathExists ("apps/" ++ name) = true →
      makeAppRun argv env = ([], MakeOutcome.existsExit)) ∧
    (∀ argv (env : PkgEnv) name, argv[2]? = some name →
      (name == "" || strStartsWith name "--") = false → validName name = true →
      env.pathExists ("packages/" ++ name) = true →
      makePackageRun argv env = ([], MakeOutcome.existsExit)) := by
  constructor
  · intro argv env name h1 h2 h3 h4
    simp [makeAppRun, h1, h2, h3, h4]
  · intro argv env name h1 h2 h3 h4
    simp [makePackageRun, h1, h2, h3, h4]

/-- An environment where `apps/gateway` already exists. -/
def appEnvClash : AppEnv := ⟨fun p => p == "apps/gateway", fun _ => true, fun _ _ => ""⟩

/-- An environment where `packages/logger` already exists. -/
def pkgEnvClash : PkgEnv := ⟨fun p => p == "packages/logger", fun _ => true, fun _ _ => ""⟩

/-- Witness for C5: scaffolding `gateway` over an existing `apps/gateway`, and
`logger` over an existing `packages/logger`, both exit with zero mutations. -/
theorem scaffold_collision_atomic_witness :
    makeAppRun ["node", "script", "gateway"] appEnvClash =
      ([], MakeOutcome.existsExit) ∧
    makePackageRun ["node", "script", "logger"] pkgEnvClash =
      ([], MakeOutcome.existsExit) :=
  ⟨scaffold_collision_atomic.1 ["node", "script", "gateway"] appEnvClash "gateway"
     (by decide) (by decide) (by decide) (by decide),
   scaffold_collision_atomic.2 ["node", "script", "logger"] pkgEnvClash "logger"
     (by decide) (by decide) (by decide) (by decide)⟩

/-! ### Deploy candidate resolution (C4, C10) -/

/-- **C4.** For every unit name and optional environment tag: with a truthy
tag the candidate list is exactly `compose.<tag>.yaml`, `compose.<tag>.yml`,
`compose.yaml`, `compose.yml`, and without a tag (absent or empty) it is
exactly `compose.yaml`, `compose.yml`; in both cases the resolver probes the
candidates in order, selects the first that exists (every earlier candidate
not existing), and when none exists it fails listing every checked
candidate. -/
theorem deploy_candidate_order (st : DeployState) (name : String)
    (hn : st.argv[2]? = some name) (hne : ¬ name = "")
    (hd : st.pathExists ("apps/" ++ name) = true) :
    ((deployEnvOf st = none ∨ deployEnvOf st = some "") →
      composeCandidates (deployEnvOf st) = ["compose.yaml", "compose.yml"]) ∧
    (∀ tag, deployEnvOf st = some tag → ¬ tag = "" →
      composeCandidates (deployEnvOf st) =
        ["compose." ++ tag ++ ".yaml", "compose." ++ tag ++ ".yml",
         "compose.yaml", "compose.yml"]) ∧
    (∀ pre f post, composeCandidates (deployEnvOf st) = pre ++ f :: post →
      st.pathExists ("apps/" ++ name ++ "/docker" ++ "/" ++ f) = true →
      (∀ g ∈ pre, st.pathExists ("apps/" ++ name ++ "/docker" ++ "/" ++ g) = false) →
      deployResolve st =
        DeployResolve.selected ("apps/" ++ name ++ "/docker" ++ "/" ++ f)) ∧
    ((∀ f ∈ composeCandidates (deployEnvOf st),
      st.pathExists ("apps/" ++ name ++ "/docker" ++ "/" ++ f) = false) →
      deployResolve st =
        DeployResolve.notFound (composeCandidates (deployEnvOf st))) := by
  refine ⟨?_, ?_, ?_, ?_⟩
  · rintro (h | h) <;> rw [h] <;> rfl
  · intro tag he ht
    rw [he]
    simp [composeCandidates, ht]
  · intro pre f post hdec hf hpre
    have hfind :
        (composeCandidates (deployEnvOf st)).find?
          (fun g => st.pathExists ("apps/" ++ name ++ "/docker" ++ "/" ++ g)) =
          some f :=
      List.find?_eq_some.mpr
        ⟨hf, pre, post, hdec, fun g hg => by simp [hpre g hg]⟩
    simp only [deployResolve, hn, hne, if_neg, if_false, hd]
    simp only [Bool.true_eq_false, if_false]
    rw [hfind]
  · intro hall
    have hfind :
        (composeCandidates (deployEnvOf st)).find?
          (fun g => st.pathExists ("apps/" ++ name ++ "/docker" ++ "/" ++ g)) =
          none :=
      List.find?_eq_none.mpr (fun g hg => by simp [hall g hg])
    simp only [deployResolve, hn, hne, if_neg, if_false, hd]
    simp only [Bool.true_eq_false, if_false]
    rw [hfind]

/-- The spec example state: deploying `web` with tag `production` while only
the generic `compose.yaml` exists on disk. -/
def deployStW : DeployState :=
  ⟨["node", "script", "web", "--env", "production"], none,
   fun p => p == "apps/web" || p == "apps/web/docker/compose.yaml"⟩

/-- An untagged run (no `--env`, variable unset) where only `compose.yml`
exists, so the probe must try `compose.yaml` first and fall through. -/
def deployStUntagged : DeployState :=
  ⟨["node", "script", "web"], none,
   fun p => p == "apps/web" || p == "apps/web/docker/compose.yml"⟩

/-- An untagged run with no compose file at all under `apps/web/docker`. -/
def deployStNone : DeployState :=
  ⟨["node", "script", "web"], none, fun p => p == "apps/web"⟩

/-- Witness for C4: with tag `production` and only `compose.yaml` present the
resolver still walks the two environment-specific names first and selects
`compose.yaml`; without a tag it probes `compose.yaml` before `compose.yml`
and selects `compose.yml` when only that one exists; and with no candidate
present it fails listing both generic candidates. -/
theorem deploy_candidate_order_witness :
    deployResolve deployStW = DeployResolve.selected "apps/web/docker/compose.yaml" ∧
    deployResolve deployStUntagged =
      DeployResolve.selected "apps/web/docker/compose.yml" ∧
    deployResolve deployStNone =
      DeployResolve.notFound ["compose.yaml", "compose.yml"] := by
  refine ⟨?_, ?_, ?_⟩
  · rw [(deploy_candidate_order deployStW "web" (by decide) (by decide)
      (by decide)).2.2.1
      ["compose.production.yaml", "compose.production.yml"] "compose.yaml"
      ["compose.yml"] (by decide) (by decide) (by decide)]
    decide
  · rw [(deploy_candidate_order deployStUntagged "web" (by decide) (by decide)
      (by decide)).2.2.1
      ["compose.yaml"] "compose.yml" [] (by decide) (by decide) (by decide)]
    decide
  · rw [(deploy_candidate_order deployStNone "web" (by decide) (by decide)
      (by decide)).2.2.2 (by decide)]
    decide

/-- **C10.** The `DEPLOY_ENV` environment variable is consulted only when no
`--env` token is present in the arguments; when `--env` occurs, the tag is
whatever follows it regardless of the variable, and when `--env` is the final
token the tag is `undefined` (not the variable) and only the generic
candidates are probed. -/
theorem deploy_env_variable_fallback (st : DeployState) :
    (st.argv.findIdx? (fun a => a == "--env") = none →
      deployEnvOf st = st.deployEnvVar) ∧
    (∀ i, st.argv.findIdx? (fun a => a == "--env") = some i →
      ∀ v, deployEnvOf { st with deployEnvVar := v } = st.argv[i + 1]?) ∧
    (∀ pre, st.argv = pre ++ ["--env"] → "--env" ∉ pre →
      deployEnvOf st = none ∧
      composeCandidates (deployEnvOf st) = ["compose.yaml", "compose.yml"]) := by
  refine ⟨?_, ?_, ?_⟩
  · intro h
    unfold deployEnvOf
    rw [h]
  · intro i h v
    unfold deployEnvOf
    rw [show ({ st with deployEnvVar := v } : DeployState).argv = st.argv from rfl, h]
  · intro pre hpre hnot
    have henv : deployEnvOf st = none := by
      unfold deployEnvOf
      rw [hpre, List.findIdx?_append, findIdx?_token_none "--env" pre hnot]
      have h0 : List.findIdx? (fun a => a == "--env") ["--env"] = some 0 := rfl
      rw [h0, Option.none_or]
      simp only [Option.map_some', Nat.zero_add]
      rw [List.getElem?_eq_none (by simp)]
    exact ⟨henv, by rw [henv]; rfl⟩

/-- A state whose arguments end in a bare `--env` while the environment
variable is set. -/
def deployStTrailing : DeployState :=
  ⟨["node", "script", "web", "--env"], some "production", fun _ => false⟩

/-- A state with no `--env` flag and the environment variable set. -/
def deployStNoFlag : DeployState :=
  ⟨["node", "script", "web"], some "staging", fun _ => false⟩

/-- Witness for C10: a trailing `--env` yields no tag — the set variable is
ignored and only the generic candidates are probed — while without `--env` the
variable is used. -/
theorem deploy_env_variable_fallback_witness :
    deployEnvOf deployStTrailing = none ∧
    composeCandidates (deployEnvOf deployStTrailing) = ["compose.yaml", "compose.yml"] ∧
    deployEnvOf deployStNoFlag = some "staging" :=
  ⟨((deploy_env_variable_fallback deployStTrailing).2.2 ["node", "script", "web"]
      rfl (by decide)).1,
   ((deploy_env_variable_fallback deployStTrailing).2.2 ["node", "script", "web"]
      rfl (by decide)).2,
   (deploy_env_variable_fallback deployStNoFlag).1 (by decide)⟩

end FuelersGo
